import Mathlib

/-!
Verification of the command-orchestration core of the `hackathon` repository.

The Lean definitions below are a shallow embedding of the Python sources:

* `src/core/types.py`          — `CommandType`, `Command`, `AgentResponse`
* `src/core/orchestrator.py`   — `Orchestrator` (routing, fan-out, history,
                                  response cache)
* `src/integrations/mcp_client.py` — `MCPClient.request` retry loop and
                                  `_parse_response` classification
* `src/core/google_agent_development_kit_coordinator.py` — `chat_execute`
                                  and `_invoke_tool`
* `src/agents/jira_agent.py` and `src/agents/confluence_agent.py` — the
  TTL caches, project-name resolution, and cache invalidation.

Conventions: instants and durations are `Nat` seconds; Python exceptions
become `Except`/sum constructors; external I/O (HTTP bodies, the reasoning
call) is an oracle passed as a function argument; `asyncio.gather` over a
task list built from the routed target list is `List.map` (gather returns
results in task order).  Python `dict` is an insertion-ordered association
list with overwrite-on-existing-key semantics (`dictInsert`).
-/

namespace Spec

/-! ## Character-list string helpers

Python's `in`, `.startswith`, `.lower()`, `.upper()` and
`.replace(" ", "")` on `str` are modelled on `String.data` so that all
operations reduce in the kernel. -/

/-- Does `needle` occur at the start of `hay`?  (Python `str.startswith`.) -/
def startsWithSeq [DecidableEq α] : List α → List α → Bool
  | [], _ => true
  | _ :: _, [] => false
  | a :: as, b :: bs => a = b && startsWithSeq as bs

/-- Does `needle` occur contiguously anywhere in `hay`?  (Python `in`.) -/
def containsSeq [DecidableEq α] (needle : List α) : List α → Bool
  | [] => startsWithSeq needle []
  | b :: bs => startsWithSeq needle (b :: bs) || containsSeq needle bs

/-- Python `needle in hay` on strings. -/
def strContains (hay needle : String) : Bool := containsSeq needle.data hay.data

/-- Python `s.startswith(pre)`. -/
def startsWithStr (s pre : String) : Bool := startsWithSeq pre.data s.data

/-- Python `s.lower()` (per-character). -/
def lowerStr (s : String) : String := ⟨s.data.map Char.toLower⟩

/-- Python `s.upper()` (per-character). -/
def upperStr (s : String) : String := ⟨s.data.map Char.toUpper⟩

/-- Python `s.replace(" ", "")`. -/
def stripSpaces (s : String) : String := ⟨s.data.filter (fun c => !(c = ' '))⟩

/-- Python `dict` assignment `m[k] = v`: overwrite in place if the key is
present, else append (insertion order preserved). -/
def dictInsert (m : List (String × β)) (k : String) (v : β) : List (String × β) :=
  if m.any (fun p => p.1 = k) then m.map (fun p => if p.1 = k then (k, v) else p)
  else m ++ [(k, v)]

/-- Python `m.get(k)` on a dict modelled as an association list. -/
def lookupKey (m : List (String × β)) (k : String) : Option β :=
  match m.find? (fun p => p.1 = k) with
  | some p => some p.2
  | none => none

/-! ## Data model (`src/core/types.py`) -/

/-- `CommandType` enum. -/
inductive CommandType where
  | JIRA_ISSUE
  | JIRA_PROJECT
  | JIRA_SPRINT
  | CONFLUENCE_PAGE
  | CONFLUENCE_SPACE
  | PROJECT_MANAGEMENT
  | SCRUM_MASTER
  | UNKNOWN
deriving DecidableEq, Repr

/-- Rendering of a `CommandType` used in the orchestrator's
`f"No agents for {command.command_type}"` message. -/
def commandTypeStr : CommandType → String
  | .JIRA_ISSUE => "CommandType.JIRA_ISSUE"
  | .JIRA_PROJECT => "CommandType.JIRA_PROJECT"
  | .JIRA_SPRINT => "CommandType.JIRA_SPRINT"
  | .CONFLUENCE_PAGE => "CommandType.CONFLUENCE_PAGE"
  | .CONFLUENCE_SPACE => "CommandType.CONFLUENCE_SPACE"
  | .PROJECT_MANAGEMENT => "CommandType.PROJECT_MANAGEMENT"
  | .SCRUM_MASTER => "CommandType.SCRUM_MASTER"
  | .UNKNOWN => "CommandType.UNKNOWN"

/-- Values flowing through the system: agent results, JSON bodies, the
single-field dicts `{"text": ...}` / `{"error": ...}`, and the coordinator's
`{"error": ..., "status": ...}` dicts.  Domain records (Jira issues,
Confluence pages) are opaque tags. -/
inductive Data where
  | str (s : String)
  | obj1 (key : String) (value : String)
  | errorDict (error : String) (status : String)
  | record (tag : String)
  | records (tags : List String)
  | json (tag : String)
deriving DecidableEq, Repr

/-- `Command` dataclass. -/
structure Command where
  command_id : String
  command_type : CommandType
  action : String
  parameters : List (String × String)
  priority : Int := 1
  timestamp : Option Nat := none
deriving DecidableEq, Repr

/-- `AgentResponse` dataclass.  `execution_time` is a nonnegative duration. -/
structure AgentResponse where
  agent_name : String
  success : Bool
  data : Option Data
  error_message : Option String := none
  execution_time : Nat := 0
deriving DecidableEq, Repr

/-! ## Orchestrator (`src/core/orchestrator.py`) -/

/-- What `agent.execute_command(command)` does for a given registered agent
during one command execution: return a result or raise. -/
inductive AgentOutcome where
  | ok (result : Data)
  | exn (msg : String)

/-- Does the outcome represent a successful agent call? -/
def isOkOutcome : AgentOutcome → Bool
  | .ok _ => true
  | .exn _ => false

/-- The orchestrator's mutable state: registered agent names, append-only
command history, and the response cache dict. -/
structure OrchState where
  agents : List String
  command_history : List Command
  response_cache : List (String × AgentResponse)

/-- `Orchestrator._route_command`: a pure function of the command type and
the registered-agent set. -/
def routeCommand (agents : List String) (c : Command) : List String :=
  if c.command_type = .JIRA_ISSUE ∨ c.command_type = .JIRA_PROJECT ∨
      c.command_type = .JIRA_SPRINT then
    if "jira_agent" ∈ agents then ["jira_agent"] else []
  else if c.command_type = .CONFLUENCE_PAGE ∨ c.command_type = .CONFLUENCE_SPACE then
    if "confluence_agent" ∈ agents then ["confluence_agent"] else []
  else if c.command_type = .PROJECT_MANAGEMENT ∨ c.command_type = .SCRUM_MASTER then
    (["jira_agent", "confluence_agent"]).filter (fun n => n ∈ agents)
  else []

/-- Timestamp stamping at the top of `execute_command`. -/
def stampTimestamp (now : Nat) (c : Command) : Command :=
  if c.timestamp.isNone then { c with timestamp := some now } else c

/-- `Orchestrator._execute_agent_command`: wraps one agent call, converting a
raised exception into a `success=False` response.  Execution times are
modelled as 0 (claims do not depend on them). -/
def executeAgentCommand (behave : String → AgentOutcome) (name : String) : AgentResponse :=
  match behave name with
  | .ok r => { agent_name := name, success := true, data := some r }
  | .exn m => { agent_name := name, success := false, data := none, error_message := some m }

/-- The response-cache key `f"{command.command_id}_{res.agent_name}"`. -/
def respCacheKey (cid name : String) : String := cid ++ "_" ++ name

/-- The `for idx, res in enumerate(results)` loop of `execute_command`:
store every successful response in the response cache. -/
def storeResponses (cid : String) (rs : List AgentResponse)
    (m : List (String × AgentResponse)) : List (String × AgentResponse) :=
  rs.foldl (fun acc r =>
    if r.success then dictInsert acc (respCacheKey cid r.agent_name) r else acc) m

/-- `Orchestrator.execute_command`.  `behave` gives each registered agent's
behaviour on this command; `now` is the current instant.  The fan-out is
`asyncio.gather` over tasks built in target-list order, so the collected
results (and hence the returned responses) follow the routed target list. -/
def execute_command (st : OrchState) (behave : String → AgentOutcome) (now : Nat)
    (c : Command) : OrchState × List AgentResponse :=
  let c := stampTimestamp now c
  let st := { st with command_history := st.command_history ++ [c] }
  let targets := routeCommand st.agents c
  if targets = [] then
    (st, [{ agent_name := "orchestrator", success := false, data := none,
            error_message := some ("No agents for " ++ commandTypeStr c.command_type) }])
  else
    let responses := targets.map (executeAgentCommand behave)
    ({ st with response_cache := storeResponses c.command_id responses st.response_cache },
     responses)

/-! ### Orchestrator lemmas -/

theorem stampTimestamp_command_type (now : Nat) (c : Command) :
    (stampTimestamp now c).command_type = c.command_type := by
  unfold stampTimestamp; split <;> rfl

theorem stampTimestamp_command_id (now : Nat) (c : Command) :
    (stampTimestamp now c).command_id = c.command_id := by
  unfold stampTimestamp; split <;> rfl

theorem routeCommand_stamp (agents : List String) (now : Nat) (c : Command) :
    routeCommand agents (stampTimestamp now c) = routeCommand agents c := by
  unfold routeCommand
  rw [stampTimestamp_command_type]

theorem routeCommand_mem (agents : List String) (c : Command) (name : String)
    (h : name ∈ routeCommand agents c) :
    name ∈ agents ∧ (name = "jira_agent" ∨ name = "confluence_agent") := by
  unfold routeCommand at h
  repeat' split at h
  all_goals simp_all

theorem routeCommand_unknown (agents : List String) (c : Command)
    (h : c.command_type = .UNKNOWN) : routeCommand agents c = [] := by
  unfold routeCommand
  rw [h]
  simp

theorem routeCommand_nodup (agents : List String) (c : Command) :
    (routeCommand agents c).Nodup := by
  unfold routeCommand
  repeat' split
  all_goals simp [List.Nodup]
  exact List.Nodup.filter _ (by simp)

/-! ## Transport (`src/integrations/mcp_client.py`)

`MCPClient.request` loops `for attempt in range(self.max_retries + 1)`,
issuing one HTTP call per iteration and parsing it with `_parse_response`.
Any exception raised inside the loop body — a transport-level failure from
the HTTP call, or the `aiohttp.ClientResponseError` that `_parse_response`
raises for a status >= 400 — is caught and, unless the attempt was the
last, swallowed so the loop retries.  On the last attempt the exception
propagates. -/

/-- One HTTP exchange as seen by `_parse_response`: the status, the
`Content-Type` header, the body's JSON parse (`none` when `resp.json()`
raises) and its raw text. -/
structure HttpResponse where
  status : Nat
  content_type : String
  json_body : Option Data
  text_body : String
deriving DecidableEq, Repr

/-- The exceptions `request` can raise. -/
inductive MCPError where
  | notConnected (msg : String)
  | clientResponseError (status : Nat) (body : Data)
  | transportError (msg : String)
  | valueError (msg : String)
deriving DecidableEq, Repr

/-- What the network does on one attempt: raise a transport-level exception
or deliver an HTTP response. -/
inductive Attempt where
  | exn (msg : String)
  | resp (r : HttpResponse)

/-- `MCPClient._parse_response`.  For status >= 400 it classifies the body
(JSON parse, falling back to `{"error": raw_text}`) and raises a typed
`ClientResponseError`; the error body stands in for the Python
`message=str(data)`.  For status < 400 it returns parsed JSON when the
`Content-Type` contains the JSON marker (`resp.json()` raising on a
malformed body is a caught exception), else `{"text": body}`. -/
def errBody (r : HttpResponse) : Data :=
  match r.json_body with
  | some j => j
  | none => .obj1 "error" r.text_body

/-- The classification step of `_parse_response` (see the comment above
`errBody` for the error-body fallback). -/
def parse_response (r : HttpResponse) : Except MCPError Data :=
  if r.status ≥ 400 then
    .error (.clientResponseError r.status (errBody r))
  else if strContains r.content_type "application/json" then
    match r.json_body with
    | some j => .ok j
    | none => .error (.transportError "json decode error")
  else
    .ok (.obj1 "text" r.text_body)

/-- One loop iteration: issue the HTTP call and parse, with every raise
surfacing as `.error`. -/
def attemptResult : Attempt → Except MCPError Data
  | .exn m => .error (.transportError m)
  | .resp r => parse_response r

/-- The retry loop over the remaining attempts, also counting how many
attempts were issued.  On the last attempt the failure propagates. -/
def requestGo : List Attempt → Except MCPError Data × Nat
  | [] => (.error (.transportError "no attempts"), 0)
  | [a] => (attemptResult a, 1)
  | a :: b :: rest =>
    match attemptResult a with
    | .ok v => (.ok v, 1)
    | .error _ =>
      let r := requestGo (b :: rest)
      (r.1, r.2 + 1)

/-- Python `method.upper() == "GET"` etc.: is the method dispatched to an
HTTP call?  An unsupported method raises `ValueError` inside the loop
(caught, pointlessly retried, raised on the last attempt) without issuing a
single HTTP call. -/
def methodSupported (method : String) : Bool :=
  upperStr method = "GET" ∨ upperStr method = "POST" ∨
    upperStr method = "PUT" ∨ upperStr method = "DELETE"

/-- `MCPClient.request` (connection check, then the retry loop), returning
the final outcome together with the number of HTTP attempts issued.
`attempts i` is what the network does on the i-th try. -/
def request (connected : Bool) (method : String) (max_retries : Nat)
    (attempts : Nat → Attempt) : Except MCPError Data × Nat :=
  if ¬connected then (.error (.notConnected "Not connected to MCP server"), 0)
  else if methodSupported method then
    requestGo ((List.range (max_retries + 1)).map attempts)
  else (.error (.valueError ("Unsupported method: " ++ method)), 0)

/-! ### Transport lemmas -/

theorem requestGo_cons_fail (a : Attempt) (l : List Attempt) (e : MCPError)
    (ha : attemptResult a = .error e) (hl : l ≠ []) :
    requestGo (a :: l) = ((requestGo l).1, (requestGo l).2 + 1) := by
  match l with
  | [] => exact absurd rfl hl
  | b :: rest => simp [requestGo, ha]

/-- If every attempt before the n-th fails and the n-th yields `v`, the loop
over `n + 1` slots returns `v` after `n + 1` attempts. -/
theorem requestGo_range_ok (n : Nat) (attempts : Nat → Attempt) (v : Data)
    (hfail : ∀ i, i < n → ∃ e, attemptResult (attempts i) = .error e)
    (hok : attemptResult (attempts n) = .ok v) :
    requestGo ((List.range (n + 1)).map attempts) = (.ok v, n + 1) := by
  induction n generalizing attempts with
  | zero => simp [List.range, List.range.loop, requestGo, hok]
  | succ n ih =>
    obtain ⟨e, he⟩ := hfail 0 (Nat.succ_pos n)
    rw [List.range_succ_eq_map, List.map_cons, List.map_map]
    have hne : (List.range (n + 1)).map (attempts ∘ Nat.succ) ≠ [] := by
      simp [List.range_succ_eq_map]
    rw [requestGo_cons_fail _ _ e he hne]
    have := ih (fun i => attempts (i + 1))
      (fun i hi => hfail (i + 1) (Nat.succ_lt_succ hi)) hok
    have hmap : List.map (attempts ∘ Nat.succ) (List.range (n + 1))
        = List.map (fun i => attempts (i + 1)) (List.range (n + 1)) :=
      List.map_congr_left (fun a _ => rfl)
    rw [hmap, this]

/-- If every attempt up to and including the n-th fails, the loop over
`n + 1` slots surfaces the last attempt's error after `n + 1` attempts. -/
theorem requestGo_range_fail (n : Nat) (attempts : Nat → Attempt) (e : MCPError)
    (hfail : ∀ i, i < n → ∃ e', attemptResult (attempts i) = .error e')
    (hlast : attemptResult (attempts n) = .error e) :
    requestGo ((List.range (n + 1)).map attempts) = (.error e, n + 1) := by
  induction n generalizing attempts with
  | zero => simp [List.range, List.range.loop, requestGo, hlast]
  | succ n ih =>
    obtain ⟨e', he'⟩ := hfail 0 (Nat.succ_pos n)
    rw [List.range_succ_eq_map, List.map_cons, List.map_map]
    have hne : (List.range (n + 1)).map (attempts ∘ Nat.succ) ≠ [] := by
      simp [List.range_succ_eq_map]
    rw [requestGo_cons_fail _ _ e' he' hne]
    have := ih (fun i => attempts (i + 1))
      (fun i hi => hfail (i + 1) (Nat.succ_lt_succ hi)) hlast
    have hmap : List.map (attempts ∘ Nat.succ) (List.range (n + 1))
        = List.map (fun i => attempts (i + 1)) (List.range (n + 1)) :=
      List.map_congr_left (fun a _ => rfl)
    rw [hmap, this]

theorem parse_response_ge400 (r : HttpResponse) (h : r.status ≥ 400) :
    parse_response r = .error (.clientResponseError r.status (errBody r)) := by
  unfold parse_response
  rw [if_pos h]

/-! ### Claim theorems about the transport -/

/-- C7: a Transport call whose first `max_retries` attempts raise
transport-level exceptions and whose next attempt parses successfully
returns the successful result after `max_retries + 1` attempts; one whose
`max_retries + 1` attempts all raise propagates the last attempt's
exception. -/
theorem C7_retry_count :
    (∀ (method : String) (mr : Nat) (attempts : Nat → Attempt)
        (msgs : Nat → String) (v : Data),
      methodSupported method = true →
      (∀ i, i < mr → attempts i = .exn (msgs i)) →
      attemptResult (attempts mr) = .ok v →
      request true method mr attempts = (.ok v, mr + 1)) ∧
    (∀ (method : String) (mr : Nat) (attempts : Nat → Attempt)
        (msgs : Nat → String),
      methodSupported method = true →
      (∀ i, i ≤ mr → attempts i = .exn (msgs i)) →
      request true method mr attempts = (.error (.transportError (msgs mr)), mr + 1)) := by
  constructor
  · intro method mr attempts msgs v hm hfail hok
    unfold request
    simp only [not_true_eq_false, if_false, hm, if_true]
    exact requestGo_range_ok mr attempts v
      (fun i hi => ⟨.transportError (msgs i), by rw [hfail i hi]; rfl⟩) hok
  · intro method mr attempts msgs hm hfail
    unfold request
    simp only [not_true_eq_false, if_false, hm, if_true]
    have hlast : attemptResult (attempts mr) = .error (.transportError (msgs mr)) := by
      rw [hfail mr (Nat.le_refl mr)]; rfl
    exact requestGo_range_fail mr attempts _
      (fun i hi => ⟨.transportError (msgs i), by rw [hfail i (Nat.le_of_lt hi)]; rfl⟩) hlast

/-- The successful JSON response used in transport witnesses. -/
def okResp : HttpResponse :=
  { status := 200, content_type := "application/json",
    json_body := some (.json "okbody"), text_body := "" }

theorem C7_retry_count_witness :
    request true "GET" 2
        (fun i => if i < 2 then .exn "timeout" else .resp okResp) = (.ok (.json "okbody"), 3) ∧
    request true "GET" 2 (fun _ => .exn "timeout") = (.error (.transportError "timeout"), 3) := by
  constructor
  · exact C7_retry_count.1 "GET" 2 _ (fun _ => "timeout") (.json "okbody")
      (by decide) (fun i hi => by simp [hi]) rfl
  · exact C7_retry_count.2 "GET" 2 _ (fun _ => "timeout") (by decide) (fun i _ => rfl)

/-- The network used to refute C1: the first response is an HTTP 500 with a
JSON error body, the second a successful JSON response. -/
def c1Attempts : Nat → Attempt
  | 0 => .resp { status := 500, content_type := "application/json",
                 json_body := some (.json "errbody"), text_body := "" }
  | _ => .resp okResp

/-- C1 counterexample: with the default `max_retries = 2` and a first
attempt answered by an HTTP 500, `request` issues a second attempt and
returns its successful result — the typed backend error from the 500 is
neither surfaced nor does the call stop after the first response. -/
theorem C1_counterexample :
    request true "GET" 2 c1Attempts = (.ok (.json "okbody"), 2) ∧
    (request true "GET" 2 c1Attempts).2 ≠ 1 := by
  exact ⟨rfl, by decide⟩

/-- C1 amended: a response with status >= 400 raises a typed backend error
inside the retry loop, which the `except` clause catches like a transport
failure: the request is retried after such responses, a later successful
attempt's result is returned, and the typed backend error is surfaced only
when it arises on the final attempt. -/
theorem C1_amended_http_errors_retried :
    (∀ (method : String) (mr : Nat) (attempts : Nat → Attempt)
        (rs : Nat → HttpResponse) (v : Data),
      methodSupported method = true →
      (∀ i, i < mr → attempts i = .resp (rs i) ∧ (rs i).status ≥ 400) →
      attemptResult (attempts mr) = .ok v →
      request true method mr attempts = (.ok v, mr + 1)) ∧
    (∀ (method : String) (mr : Nat) (attempts : Nat → Attempt)
        (rs : Nat → HttpResponse),
      methodSupported method = true →
      (∀ i, i ≤ mr → attempts i = .resp (rs i) ∧ (rs i).status ≥ 400) →
      request true method mr attempts =
        (.error (.clientResponseError (rs mr).status (errBody (rs mr))), mr + 1)) := by
  constructor
  · intro method mr attempts rs v hm hfail hok
    unfold request
    simp only [not_true_eq_false, if_false, hm, if_true]
    refine requestGo_range_ok mr attempts v (fun i hi => ?_) hok
    obtain ⟨ha, hs⟩ := hfail i hi
    exact ⟨_, by rw [ha]; exact parse_response_ge400 _ hs⟩
  · intro method mr attempts rs hm hfail
    unfold request
    simp only [not_true_eq_false, if_false, hm, if_true]
    have hlast : attemptResult (attempts mr)
        = .error (.clientResponseError (rs mr).status (errBody (rs mr))) := by
      obtain ⟨ha, hs⟩ := hfail mr (Nat.le_refl mr)
      rw [ha]; exact parse_response_ge400 _ hs
    refine requestGo_range_fail mr attempts _ (fun i hi => ?_) hlast
    obtain ⟨ha, hs⟩ := hfail i (Nat.le_of_lt hi)
    exact ⟨_, by rw [ha]; exact parse_response_ge400 _ hs⟩

/-- The all-500 network for the amended-C1 witness. -/
def http500 : HttpResponse :=
  { status := 500, content_type := "application/json",
    json_body := some (.json "errbody"), text_body := "" }

theorem C1_amended_http_errors_retried_witness :
    request true "GET" 1 c1Attempts = (.ok (.json "okbody"), 2) ∧
    request true "GET" 2 (fun _ => .resp http500)
      = (.error (.clientResponseError 500 (.json "errbody")), 3) := by
  have h500 : http500.status ≥ 400 := by decide
  constructor
  · exact C1_amended_http_errors_retried.1 "GET" 1 c1Attempts (fun _ => http500)
      (.json "okbody") (by decide) (fun i hi => by interval_cases i; exact ⟨rfl, h500⟩) rfl
  · exact C1_amended_http_errors_retried.2 "GET" 2 (fun _ => .resp http500)
      (fun _ => http500) (by decide) (fun i _ => ⟨rfl, h500⟩)

/-! ### Response-cache lemmas for `execute_command` -/

theorem respCacheKey_inj (cid a b : String) (h : respCacheKey cid a = respCacheKey cid b) :
    a = b := by
  unfold respCacheKey at h
  have hd := congrArg String.data h
  rw [String.data_append, String.data_append, String.data_append, String.data_append,
    List.append_assoc, List.append_assoc] at hd
  exact String.ext (List.append_cancel_left (List.append_cancel_left hd))

theorem dictInsert_fresh (m : List (String × β)) (k : String) (v : β)
    (h : ∀ p ∈ m, ¬p.1 = k) : dictInsert m k v = m ++ [(k, v)] := by
  unfold dictInsert
  rw [if_neg]
  simp only [List.any_eq_true, decide_eq_true_eq]
  push_neg
  exact h

theorem dictInsert_mem (m : List (String × β)) (k : String) (v : β) (p : String × β)
    (hp : p ∈ dictInsert m k v) : p ∈ m ∨ p = (k, v) := by
  unfold dictInsert at hp
  split at hp
  · rw [List.mem_map] at hp
    obtain ⟨q, hq, he⟩ := hp
    by_cases hk : q.1 = k
    · right; rw [if_pos hk] at he; exact he.symm
    · left; rw [if_neg hk] at he; exact he ▸ hq
  · rcases List.mem_append.mp hp with h | h
    · exact Or.inl h
    · right; simpa using h

theorem storeResponses_length (cid : String) (rs : List AgentResponse)
    (m : List (String × AgentResponse))
    (hfresh : ∀ r ∈ rs, r.success = true →
      ∀ p ∈ m, ¬p.1 = respCacheKey cid r.agent_name)
    (hnodup : (rs.map (fun r => r.agent_name)).Nodup) :
    (storeResponses cid rs m).length = m.length + (rs.filter (fun r => r.success)).length := by
  induction rs generalizing m with
  | nil => simp [storeResponses]
  | cons r rs ih =>
    rw [List.map_cons, List.nodup_cons] at hnodup
    have hstep : storeResponses cid (r :: rs) m
        = storeResponses cid rs
            (if r.success then dictInsert m (respCacheKey cid r.agent_name) r else m) := rfl
    by_cases hs : r.success = true
    · rw [hstep, if_pos hs,
        dictInsert_fresh _ _ _ (hfresh r (List.mem_cons_self r rs) hs)]
      have hfresh' : ∀ r' ∈ rs, r'.success = true →
          ∀ p ∈ m ++ [(respCacheKey cid r.agent_name, r)],
            ¬p.1 = respCacheKey cid r'.agent_name := by
        intro r' hr' hs' p hp
        rcases List.mem_append.mp hp with hpm | hpk
        · exact hfresh r' (List.mem_cons_of_mem r hr') hs' p hpm
        · have : p = (respCacheKey cid r.agent_name, r) := by simpa using hpk
          subst this
          intro hk
        
          exact hnodup.1 (by
            have : r.agent_name = r'.agent_name := respCacheKey_inj cid _ _ hk
            rw [this]
            exact List.mem_map_of_mem _ hr')
      rw [ih _ hfresh' hnodup.2, List.length_append]
      simp [List.filter_cons, hs]
      omega
    · rw [hstep, if_neg hs, ih _ (fun r' hr' => hfresh r' (List.mem_cons_of_mem r hr')) hnodup.2]
      simp [List.filter_cons, hs]

theorem storeResponses_mem (cid : String) (rs : List AgentResponse)
    (m : List (String × AgentResponse)) (p : String × AgentResponse)
    (hp : p ∈ storeResponses cid rs m) :
    p ∈ m ∨ ∃ r ∈ rs, r.success = true ∧ p = (respCacheKey cid r.agent_name, r) := by
  induction rs generalizing m with
  | nil => exact Or.inl hp
  | cons r rs ih =>
    have hstep : storeResponses cid (r :: rs) m
        = storeResponses cid rs
            (if r.success then dictInsert m (respCacheKey cid r.agent_name) r else m) := rfl
    rw [hstep] at hp
    rcases ih _ hp with hq | ⟨r', hr', hs', he'⟩
    · by_cases hs : r.success = true
      · rw [if_pos hs] at hq
        rcases dictInsert_mem _ _ _ _ hq with h | h
        · exact Or.inl h
        · exact Or.inr ⟨r, List.mem_cons_self r rs, hs, h⟩
      · rw [if_neg hs] at hq
        exact Or.inl hq
    · exact Or.inr ⟨r', List.mem_cons_of_mem r hr', hs', he'⟩

theorem executeAgentCommand_name (behave : String → AgentOutcome) (name : String) :
    (executeAgentCommand behave name).agent_name = name := by
  unfold executeAgentCommand
  cases behave name <;> rfl

theorem executeAgentCommand_success (behave : String → AgentOutcome) (name : String) :
    (executeAgentCommand behave name).success = isOkOutcome (behave name) := by
  unfold executeAgentCommand isOkOutcome
  cases behave name <;> rfl

theorem map_agent_name_executeAgentCommand (behave : String → AgentOutcome)
    (targets : List String) :
    (targets.map (executeAgentCommand behave)).map (fun r => r.agent_name) = targets := by
  induction targets with
  | nil => rfl
  | cons t ts ih => simp [executeAgentCommand_name, ih]

theorem length_filter_success_map (behave : String → AgentOutcome) (targets : List String) :
    ((targets.map (executeAgentCommand behave)).filter (fun r => r.success)).length
      = (targets.filter (fun n => isOkOutcome (behave n))).length := by
  induction targets with
  | nil => rfl
  | cons t ts ih =>
    rw [List.map_cons, List.filter_cons, List.filter_cons, executeAgentCommand_success]
    cases isOkOutcome (behave t) <;> simp [ih]

theorem execute_command_of_targets_ne (st : OrchState) (behave : String → AgentOutcome)
    (now : Nat) (c : Command) (hne : routeCommand st.agents c ≠ []) :
    execute_command st behave now c =
      ({ st with
          command_history := st.command_history ++ [stampTimestamp now c],
          response_cache := storeResponses c.command_id
            ((routeCommand st.agents c).map (executeAgentCommand behave))
            st.response_cache },
       (routeCommand st.agents c).map (executeAgentCommand behave)) := by
  simp only [execute_command, routeCommand_stamp, stampTimestamp_command_id]
  rw [if_neg hne]

theorem execute_command_of_targets_nil (st : OrchState) (behave : String → AgentOutcome)
    (now : Nat) (c : Command) (h : routeCommand st.agents c = []) :
    execute_command st behave now c =
      ({ st with command_history := st.command_history ++ [stampTimestamp now c] },
       [{ agent_name := "orchestrator", success := false, data := none,
          error_message := some ("No agents for " ++ commandTypeStr c.command_type),
          execution_time := 0 }]) := by
  simp only [execute_command, routeCommand_stamp, stampTimestamp_command_type]
  rw [if_pos h]

/-! ### Claim theorems about the orchestrator -/

/-- C5: for a command whose routing yields zero targets, `execute_command`
returns exactly one `AgentResponse`, with `success = False`, naming
`"orchestrator"` as responder and describing the missing capability, and
the (timestamp-stamped) command is still appended to History in the
returned state. -/
theorem C5_zero_targets (st : OrchState) (behave : String → AgentOutcome) (now : Nat)
    (c : Command) (h : routeCommand st.agents c = []) :
    (execute_command st behave now c).2 =
      [{ agent_name := "orchestrator", success := false, data := none,
         error_message := some ("No agents for " ++ commandTypeStr c.command_type),
         execution_time := 0 }] ∧
    (execute_command st behave now c).1.command_history
      = st.command_history ++ [stampTimestamp now c] := by
  rw [execute_command_of_targets_nil st behave now c h]
  exact ⟨rfl, rfl⟩

theorem C5_zero_targets_witness :
    (execute_command ⟨[], [], []⟩ (fun _ => .exn "boom") 7
        ⟨"cmd1", .UNKNOWN, "act", [], 1, none⟩).2 =
      [{ agent_name := "orchestrator", success := false, data := none,
         error_message := some ("No agents for " ++ commandTypeStr .UNKNOWN),
         execution_time := 0 }] ∧
    (execute_command ⟨[], [], []⟩ (fun _ => .exn "boom") 7
        ⟨"cmd1", .UNKNOWN, "act", [], 1, none⟩).1.command_history
      = [] ++ [stampTimestamp 7 ⟨"cmd1", .UNKNOWN, "act", [], 1, none⟩] :=
  C5_zero_targets ⟨[], [], []⟩ (fun _ => .exn "boom") 7
    ⟨"cmd1", .UNKNOWN, "act", [], 1, none⟩ (by decide)

/-- C10: for every registry state and every command, routing returns only
names that are currently registered and drawn from the fixed set
{"jira_agent", "confluence_agent"}; a command whose category is UNKNOWN
always routes to zero targets. -/
theorem C10_routing_targets :
    (∀ (agents : List String) (c : Command) (name : String),
      name ∈ routeCommand agents c →
      name ∈ agents ∧ (name = "jira_agent" ∨ name = "confluence_agent")) ∧
    (∀ (agents : List String) (c : Command),
      c.command_type = .UNKNOWN → routeCommand agents c = []) :=
  ⟨routeCommand_mem, routeCommand_unknown⟩

theorem C10_routing_targets_witness :
    ("jira_agent" ∈ ["extra_agent", "jira_agent"] ∧
      ("jira_agent" = "jira_agent" ∨ "jira_agent" = "confluence_agent")) ∧
    routeCommand ["extra_agent", "jira_agent"] ⟨"id", .UNKNOWN, "a", [], 1, none⟩ = [] :=
  ⟨C10_routing_targets.1 ["extra_agent", "jira_agent"]
      ⟨"id", .JIRA_ISSUE, "a", [], 1, none⟩ "jira_agent" (by decide),
   C10_routing_targets.2 ["extra_agent", "jira_agent"]
      ⟨"id", .UNKNOWN, "a", [], 1, none⟩ rfl⟩

/-- C2: for a command with a nonempty routed target list whose response-cache
keys are fresh, `execute_command` returns one response per target, ordered to
match the routed target list; exactly K of them have `success = True`, where
K is the number of targets whose agent call succeeds; exactly K entries are
added to the response cache; and every cache entry is either pre-existing or
a successful response stored under the key `"{command_id}_{agent_name}"` —
failed responses are never cached. -/
theorem C2_fanout_aggregation (st : OrchState) (behave : String → AgentOutcome)
    (now : Nat) (c : Command)
    (hne : routeCommand st.agents c ≠ [])
    (hfresh : ∀ name ∈ routeCommand st.agents c,
      ∀ p ∈ st.response_cache, ¬p.1 = respCacheKey c.command_id name) :
    (execute_command st behave now c).2.length = (routeCommand st.agents c).length ∧
    (execute_command st behave now c).2.map (fun r => r.agent_name)
      = routeCommand st.agents c ∧
    ((execute_command st behave now c).2.filter (fun r => r.success)).length
      = ((routeCommand st.agents c).filter (fun n => isOkOutcome (behave n))).length ∧
    (execute_command st behave now c).1.response_cache.length
      = st.response_cache.length
        + ((routeCommand st.agents c).filter (fun n => isOkOutcome (behave n))).length ∧
    (∀ p ∈ (execute_command st behave now c).1.response_cache,
      p ∈ st.response_cache ∨
        (p.2.success = true ∧ p.1 = respCacheKey c.command_id p.2.agent_name)) := by
  rw [execute_command_of_targets_ne st behave now c hne]
  have hfresh' : ∀ r ∈ (routeCommand st.agents c).map (executeAgentCommand behave),
      r.success = true → ∀ p ∈ st.response_cache,
        ¬p.1 = respCacheKey c.command_id r.agent_name := by
    intro r hr _ p hp
    rw [List.mem_map] at hr
    obtain ⟨n, hn, he⟩ := hr
    rw [← he, executeAgentCommand_name]
    exact hfresh n hn p hp
  have hnodup : (((routeCommand st.agents c).map (executeAgentCommand behave)).map
      (fun r => r.agent_name)).Nodup := by
    rw [map_agent_name_executeAgentCommand]
    exact routeCommand_nodup st.agents c
  refine ⟨List.length_map _ _, map_agent_name_executeAgentCommand behave _,
    length_filter_success_map behave _, ?_, ?_⟩
  · rw [storeResponses_length c.command_id _ st.response_cache hfresh' hnodup,
      length_filter_success_map behave _]
  · intro p hp
    rcases storeResponses_mem c.command_id _ st.response_cache p hp with h | ⟨r, _, hs, he⟩
    · exact Or.inl h
    · right
      rw [he]
      exact ⟨hs, rfl⟩

def c2State : OrchState := ⟨["jira_agent", "confluence_agent"], [], []⟩

def c2Behave : String → AgentOutcome :=
  fun n => if n = "jira_agent" then .ok (.record "done") else .exn "boom"

def c2Cmd : Command := ⟨"cmd2", .PROJECT_MANAGEMENT, "act", [], 1, none⟩

theorem C2_fanout_aggregation_witness :
    (execute_command c2State c2Behave 3 c2Cmd).2.length
      = (routeCommand c2State.agents c2Cmd).length ∧
    (execute_command c2State c2Behave 3 c2Cmd).2.map (fun r => r.agent_name)
      = routeCommand c2State.agents c2Cmd ∧
    ((execute_command c2State c2Behave 3 c2Cmd).2.filter (fun r => r.success)).length
      = ((routeCommand c2State.agents c2Cmd).filter
          (fun n => isOkOutcome (c2Behave n))).length ∧
    (execute_command c2State c2Behave 3 c2Cmd).1.response_cache.length
      = c2State.response_cache.length
        + ((routeCommand c2State.agents c2Cmd).filter
            (fun n => isOkOutcome (c2Behave n))).length ∧
    (∀ p ∈ (execute_command c2State c2Behave 3 c2Cmd).1.response_cache,
      p ∈ c2State.response_cache ∨
        (p.2.success = true ∧ p.1 = respCacheKey c2Cmd.command_id p.2.agent_name)) :=
  C2_fanout_aggregation c2State c2Behave 3 c2Cmd (by decide)
    (by intro name _ p hp; simp [c2State] at hp)

/-! ## Coordinator (`src/core/google_agent_development_kit_coordinator.py`)

`chat_execute` sends the user message to the LLM (`self.llm_agent.chat`);
that external reasoning call is NOT wrapped in a `try`, so an exception it
raises propagates out of `chat_execute`.  If the returned message carries a
non-empty `tool_calls` list, each call is processed in order: JSON-argument
parsing and `_invoke_tool` run inside a per-call `try`, so each invocation
yields exactly one `AgentResponse`.  `_invoke_tool` wraps its whole body in
`try/except`, converting any raise — including the `ValueError("Unknown
tool: ...")` for a name outside the fixed table — into an
`{"error": ..., "status": "error"}` dict.  Tool arguments are opaque
(`ToolArgs` records only how `json.loads` behaves on them). -/

/-- Opaque parsed tool arguments. -/
abbrev Args := String

/-- The `arguments` attribute of one tool call and how `json.loads` treats
it: a string that parses, a string whose parse raises, an already-parsed
mapping, or `None` (replaced by the empty mapping). -/
inductive ToolArgs where
  | strOk (a : Args)
  | strBad (msg : String)
  | dict (a : Args)
  | null
deriving DecidableEq, Repr

/-- One entry of the reasoning call's `tool_calls` list. -/
structure ToolCall where
  name : String
  args : ToolArgs
deriving DecidableEq, Repr

/-- The message object returned by the reasoning call: its `tool_calls`
attribute (absent → `none`) and its text `content`. -/
structure LlmMessage where
  tool_calls : Option (List ToolCall)
  content : String

/-- Behaviour of the external reasoning call on one `chat_execute`
invocation: raise, or return a message. -/
inductive LlmBehaviour where
  | raises (msg : String)
  | returns (msg : LlmMessage)

/-- The fixed operation table (the six function declarations in
`self.tools`). -/
def toolTable : List String :=
  ["jira_get_issues", "jira_create_issue", "jira_update_issue",
   "confluence_get_page", "confluence_create_page", "confluence_update_page"]

/-- `parsed_args = json.loads(args) if isinstance(args, str) else (args or @)`
inside the per-call `try` (with `@` the empty mapping). -/
def parseToolArgs : ToolArgs → Except String Args
  | .strOk a => .ok a
  | .strBad m => .error m
  | .dict a => .ok a
  | .null => .ok ""

/-- `GoogleAgentDevelopmentKitCoordinator._invoke_tool`.  `jiraOps` and
`confOps` give the underlying agent methods' behaviour (return a record or
raise).  The body's `try/except` converts every raise into an
`{"error": str(e), "status": "error"}` dict. -/
def invoke_tool (javail cavail : Bool)
    (jiraOps confOps : String → Args → Except String Data)
    (name : String) (args : Args) : Data :=
  let inner : Except String Data :=
    if startsWithStr name "jira_" then
      if !javail then .ok (.errorDict "Jira MCP server not available" "unavailable")
      else if name = "jira_get_issues" ∨ name = "jira_create_issue" ∨
          name = "jira_update_issue" then
        jiraOps name args
      else .error ("Unknown tool: " ++ name)
    else if startsWithStr name "confluence_" then
      if !cavail then .ok (.errorDict "Confluence MCP server not available" "unavailable")
      else if name = "confluence_get_page" ∨ name = "confluence_create_page" ∨
          name = "confluence_update_page" then
        confOps name args
      else .error ("Unknown tool: " ++ name)
    else .error ("Unknown tool: " ++ name)
  match inner with
  | .ok d => d
  | .error e => .errorDict e "error"

/-- The `isinstance(data, dict) and data.get("status") in ["unavailable",
"error"]` check of `chat_execute`, yielding the dict's `error` field when it
fires.  Genuine tool results (records, record lists, pages) are never dicts
of this shape. -/
def errorStatusOf : Data → Option String
  | .errorDict e s => if s = "unavailable" ∨ s = "error" then some e else none
  | _ => none

/-- The body of the `for tool_call in tool_calls` loop: one `AgentResponse`
per invocation, failures local to the call. -/
def processToolCall (javail cavail : Bool)
    (jiraOps confOps : String → Args → Except String Data)
    (tc : ToolCall) : AgentResponse :=
  match parseToolArgs tc.args with
  | .error e =>
    { agent_name := tc.name, success := false, data := none, error_message := some e }
  | .ok a =>
    let d := invoke_tool javail cavail jiraOps confOps tc.name a
    match errorStatusOf d with
    | some e =>
      { agent_name := tc.name, success := false, data := some d, error_message := some e }
    | none => { agent_name := tc.name, success := true, data := some d }

/-- `GoogleAgentDevelopmentKitCoordinator.chat_execute`.  A raise from the
reasoning call propagates (`.error`); a message with a non-empty
`tool_calls` list is processed call by call in list order; otherwise the
text content is returned as a single successful response. -/
def chat_execute (javail cavail : Bool)
    (jiraOps confOps : String → Args → Except String Data)
    (llm : LlmBehaviour) : Except String (List AgentResponse) :=
  match llm with
  | .raises m => .error m
  | .returns msg =>
    match msg.tool_calls with
    | some (tc :: tcs) =>
      .ok ((tc :: tcs).map (processToolCall javail cavail jiraOps confOps))
    | _ => .ok [{ agent_name := "llm", success := true, data := some (.str msg.content) }]

/-! ### Claim theorems about the coordinator -/

/-- The response `chat_execute` produces for an invocation whose operation
name is outside the fixed table, mirroring `_invoke_tool`'s branch order:
when the name carries an available (or absent) service prefix the error
names the unknown operation; when the named service is unavailable the
error reports the unavailable server instead. -/
def unknownToolResponse (javail cavail : Bool) (name : String) : AgentResponse :=
  if startsWithStr name "jira_" then
    if !javail then
      { agent_name := name, success := false,
        data := some (.errorDict "Jira MCP server not available" "unavailable"),
        error_message := some "Jira MCP server not available" }
    else
      { agent_name := name, success := false,
        data := some (.errorDict ("Unknown tool: " ++ name) "error"),
        error_message := some ("Unknown tool: " ++ name) }
  else if startsWithStr name "confluence_" then
    if !cavail then
      { agent_name := name, success := false,
        data := some (.errorDict "Confluence MCP server not available" "unavailable"),
        error_message := some "Confluence MCP server not available" }
    else
      { agent_name := name, success := false,
        data := some (.errorDict ("Unknown tool: " ++ name) "error"),
        error_message := some ("Unknown tool: " ++ name) }
  else
    { agent_name := name, success := false,
      data := some (.errorDict ("Unknown tool: " ++ name) "error"),
      error_message := some ("Unknown tool: " ++ name) }

theorem processToolCall_unknown (javail cavail : Bool)
    (jiraOps confOps : String → Args → Except String Data) (tc : ToolCall)
    (hname : ¬tc.name ∈ toolTable) (hargs : ∀ m, tc.args ≠ .strBad m) :
    processToolCall javail cavail jiraOps confOps tc
      = unknownToolResponse javail cavail tc.name := by
  simp only [toolTable, List.mem_cons, List.not_mem_nil, or_false] at hname
  push_neg at hname
  obtain ⟨h1, h2, h3, h4, h5, h6⟩ := hname
  have hinv : invoke_tool javail cavail jiraOps confOps tc.name
        = fun _ =>
          (if startsWithStr tc.name "jira_" then
            (if !javail then Data.errorDict "Jira MCP server not available" "unavailable"
             else .errorDict ("Unknown tool: " ++ tc.name) "error")
          else if startsWithStr tc.name "confluence_" then
            (if !cavail then Data.errorDict "Confluence MCP server not available" "unavailable"
             else .errorDict ("Unknown tool: " ++ tc.name) "error")
          else .errorDict ("Unknown tool: " ++ tc.name) "error") := by
    funext args
    unfold invoke_tool
    simp only [h1, h2, h3, h4, h5, h6, if_false, or_self]
    by_cases hj : startsWithStr tc.name "jira_" = true
    · simp only [hj, if_true]
      cases javail <;> rfl
    · simp only [hj, if_false, Bool.false_eq_true]
      by_cases hc : startsWithStr tc.name "confluence_" = true
      · simp only [hc, if_true]
        cases cavail <;> rfl
      · simp only [hc, if_false, Bool.false_eq_true]
  cases ha : tc.args with
  | strBad m => exact absurd ha (hargs m)
  | strOk a =>
    simp only [processToolCall, parseToolArgs, ha, hinv, unknownToolResponse]
    by_cases hj : startsWithStr tc.name "jira_" = true
    · simp only [hj, if_true]
      cases javail <;> rfl
    · simp only [hj, if_false, Bool.false_eq_true]
      by_cases hc : startsWithStr tc.name "confluence_" = true
      · simp only [hc, if_true]
        cases cavail <;> rfl
      · simp only [hc, if_false, Bool.false_eq_true]
        rfl
  | dict a =>
    simp only [processToolCall, parseToolArgs, ha, hinv, unknownToolResponse]
    by_cases hj : startsWithStr tc.name "jira_" = true
    · simp only [hj, if_true]
      cases javail <;> rfl
    · simp only [hj, if_false, Bool.false_eq_true]
      by_cases hc : startsWithStr tc.name "confluence_" = true
      · simp only [hc, if_true]
        cases cavail <;> rfl
      · simp only [hc, if_false, Bool.false_eq_true]
        rfl
  | null =>
    simp only [processToolCall, parseToolArgs, ha, hinv, unknownToolResponse]
    by_cases hj : startsWithStr tc.name "jira_" = true
    · simp only [hj, if_true]
      cases javail <;> rfl
    · simp only [hj, if_false, Bool.false_eq_true]
      by_cases hc : startsWithStr tc.name "confluence_" = true
      · simp only [hc, if_true]
        cases cavail <;> rfl
      · simp only [hc, if_false, Bool.false_eq_true]
        rfl

theorem chat_execute_calls (javail cavail : Bool)
    (jiraOps confOps : String → Args → Except String Data)
    (calls : List ToolCall) (content : String) (hne : calls ≠ []) :
    chat_execute javail cavail jiraOps confOps (.returns ⟨some calls, content⟩)
      = .ok (calls.map (processToolCall javail cavail jiraOps confOps)) := by
  match calls with
  | [] => exact absurd rfl hne
  | tc :: tcs => rfl

/-- C9 counterexample: an invocation naming `"jira_bogus"` — an operation
outside the fixed table — while the Jira agent is unavailable yields one
`success = False` response whose error message is "Jira MCP server not
available": it does not name the unknown operation. -/
theorem C9_counterexample :
    chat_execute false true (fun _ _ => .ok (.record "r")) (fun _ _ => .ok (.record "r"))
        (.returns ⟨some [⟨"jira_bogus", .dict "a"⟩], ""⟩)
      = .ok [{ agent_name := "jira_bogus", success := false,
               data := some (.errorDict "Jira MCP server not available" "unavailable"),
               error_message := some "Jira MCP server not available",
               execution_time := 0 }] ∧
    ¬"jira_bogus" ∈ toolTable ∧
    some "Jira MCP server not available" ≠ some ("Unknown tool: " ++ "jira_bogus") :=
  ⟨rfl, by decide, by decide⟩

/-- C9 amended: an invocation whose operation name is outside the fixed
table (and whose arguments parse) yields exactly one `success = False`
response at its own position; the error names the unknown operation unless
the name carries the `jira_`/`confluence_` prefix of an unavailable service,
in which case it reports that server as unavailable.  The failure affects
neither the number nor the position of sibling results, and the result at
position i depends only on the invocation at position i. -/
theorem C9_amended_unknown_tool (javail cavail : Bool)
    (jiraOps confOps : String → Args → Except String Data)
    (calls : List ToolCall) (content : String) (i : Nat) (tc : ToolCall)
    (htc : calls[i]? = some tc)
    (hname : ¬tc.name ∈ toolTable)
    (hargs : ∀ m, tc.args ≠ .strBad m) :
    ∃ rs, chat_execute javail cavail jiraOps confOps (.returns ⟨some calls, content⟩)
        = .ok rs
      ∧ rs.length = calls.length
      ∧ rs[i]? = some (unknownToolResponse javail cavail tc.name)
      ∧ ∀ (calls₂ : List ToolCall) (content₂ : String),
          calls₂[i]? = some tc →
          ∃ rs₂, chat_execute javail cavail jiraOps confOps
              (.returns ⟨some calls₂, content₂⟩) = .ok rs₂
            ∧ rs₂[i]? = some (unknownToolResponse javail cavail tc.name) := by
  have hne : calls ≠ [] := by
    intro h
    rw [h] at htc
    simp at htc
  refine ⟨calls.map (processToolCall javail cavail jiraOps confOps),
    chat_execute_calls javail cavail jiraOps confOps calls content hne,
    List.length_map _ _, ?_, ?_⟩
  · rw [List.getElem?_map, htc]
    simp only [Option.map_some']
    rw [processToolCall_unknown javail cavail jiraOps confOps tc hname hargs]
  · intro calls₂ content₂ htc₂
    have hne₂ : calls₂ ≠ [] := by
      intro h
      rw [h] at htc₂
      simp at htc₂
    refine ⟨calls₂.map (processToolCall javail cavail jiraOps confOps),
      chat_execute_calls javail cavail jiraOps confOps calls₂ content₂ hne₂, ?_⟩
    rw [List.getElem?_map, htc₂]
    simp only [Option.map_some']
    rw [processToolCall_unknown javail cavail jiraOps confOps tc hname hargs]

theorem C9_amended_unknown_tool_witness :
    ∃ rs, chat_execute true true (fun _ _ => .ok (.record "r")) (fun _ _ => .ok (.record "r"))
        (.returns ⟨some [⟨"nosuch_tool", .null⟩, ⟨"jira_get_issues", .null⟩], ""⟩)
        = .ok rs
      ∧ rs.length = 2
      ∧ rs[0]? = some (unknownToolResponse true true "nosuch_tool")
      ∧ ∀ (calls₂ : List ToolCall) (content₂ : String),
          calls₂[0]? = some ⟨"nosuch_tool", .null⟩ →
          ∃ rs₂, chat_execute true true (fun _ _ => .ok (.record "r"))
              (fun _ _ => .ok (.record "r")) (.returns ⟨some calls₂, content₂⟩) = .ok rs₂
            ∧ rs₂[0]? = some (unknownToolResponse true true "nosuch_tool") :=
  C9_amended_unknown_tool true true (fun _ _ => .ok (.record "r"))
    (fun _ _ => .ok (.record "r"))
    [⟨"nosuch_tool", .null⟩, ⟨"jira_get_issues", .null⟩] "" 0 ⟨"nosuch_tool", .null⟩
    rfl (by decide) (fun m h => ToolArgs.noConfusion h)

/-- C4 counterexample: when the external reasoning call raises,
`chat_execute` raises too — the exception propagates past the core
boundary instead of being turned into a response list. -/
theorem C4_counterexample :
    chat_execute true true (fun _ _ => .ok (.record "r")) (fun _ _ => .ok (.record "r"))
      (.raises "boom") = .error "boom" := rfl

/-- C4 amended: `Orchestrator.execute_command` returns a non-empty response
list for every input and every agent behaviour, converting a raised agent
exception into a `success = False` entry; `chat_execute` returns a response
list for every returned reasoning-call message and every tool behaviour —
but an exception raised by the external reasoning call itself propagates to
the caller (see the C4 counterexample). -/
theorem C4_amended_core_boundary :
    (∀ (st : OrchState) (behave : String → AgentOutcome) (now : Nat) (c : Command),
      (execute_command st behave now c).2 ≠ [] ∧
      ∀ name msg, name ∈ routeCommand st.agents c → behave name = .exn msg →
        ({ agent_name := name, success := false, data := none,
           error_message := some msg, execution_time := 0 } : AgentResponse)
          ∈ (execute_command st behave now c).2) ∧
    (∀ (javail cavail : Bool) (jOps cOps : String → Args → Except String Data)
        (msg : LlmMessage),
      ∃ rs, chat_execute javail cavail jOps cOps (.returns msg) = .ok rs) := by
  constructor
  · intro st behave now c
    by_cases h : routeCommand st.agents c = []
    · rw [execute_command_of_targets_nil st behave now c h]
      refine ⟨by simp, ?_⟩
      intro name msg hmem
      rw [h] at hmem
      exact absurd hmem (List.not_mem_nil name)
    · rw [execute_command_of_targets_ne st behave now c h]
      constructor
      · simp only [ne_eq, List.map_eq_nil_iff]
        exact h
      · intro name msg hmem hexn
        have : executeAgentCommand behave name
            = { agent_name := name, success := false, data := none,
                error_message := some msg, execution_time := 0 } := by
          unfold executeAgentCommand
          rw [hexn]
        rw [← this]
        exact List.mem_map_of_mem _ hmem
  · intro javail cavail jOps cOps msg
    obtain ⟨tcs?, content⟩ := msg
    match tcs? with
    | some (tc :: tcs) => exact ⟨_, rfl⟩
    | some [] => exact ⟨_, rfl⟩
    | none => exact ⟨_, rfl⟩

theorem C4_amended_core_boundary_witness :
    (execute_command ⟨["jira_agent"], [], []⟩ (fun _ => .exn "boom") 1
        ⟨"c4", .JIRA_ISSUE, "act", [], 1, none⟩).2 ≠ [] ∧
    ({ agent_name := "jira_agent", success := false, data := none,
       error_message := some "boom", execution_time := 0 } : AgentResponse)
      ∈ (execute_command ⟨["jira_agent"], [], []⟩ (fun _ => .exn "boom") 1
          ⟨"c4", .JIRA_ISSUE, "act", [], 1, none⟩).2 ∧
    ∃ rs, chat_execute true true (fun _ _ => .ok (.record "r"))
        (fun _ _ => .ok (.record "r")) (.returns ⟨none, "hello"⟩) = .ok rs :=
  ⟨(C4_amended_core_boundary.1 ⟨["jira_agent"], [], []⟩ (fun _ => .exn "boom") 1
      ⟨"c4", .JIRA_ISSUE, "act", [], 1, none⟩).1,
   (C4_amended_core_boundary.1 ⟨["jira_agent"], [], []⟩ (fun _ => .exn "boom") 1
      ⟨"c4", .JIRA_ISSUE, "act", [], 1, none⟩).2 "jira_agent" "boom" (by decide) rfl,
   C4_amended_core_boundary.2 true true (fun _ _ => .ok (.record "r"))
      (fun _ _ => .ok (.record "r")) ⟨none, "hello"⟩⟩

/-! ## Service-adapter TTL caches (`src/agents/jira_agent.py`,
`src/agents/confluence_agent.py`)

Both agents own `self.cache` (a dict of `{"val": ..., "ts": datetime}`
entries), `cache_ttl_seconds = 300`, `_last_cleanup`, and identical
`_get_cache` / `_set_cache` / `_cleanup_cache` helpers.  Time is an
explicit `now : Nat` (seconds); all `datetime.now()` calls within a single
operation are modelled as the same instant.  Transport replies are an
oracle (the model covers successful HTTP exchanges; transport failures are
covered by the `request` model above). -/

/-- One cache entry `{"val": v, "ts": t}`. -/
structure CEntry (α : Type) where
  val : α
  ts : Nat
deriving DecidableEq, Repr

/-- The adapter-private cache dict plus `_last_cleanup`. -/
structure CacheState (α : Type) where
  cache : List (String × CEntry α)
  last_cleanup : Nat
deriving DecidableEq, Repr

/-- A freshly constructed agent at instant `t` (`self.cache = {}`,
`self._last_cleanup = datetime.now()`). -/
def initCache (t : Nat) : CacheState α := { cache := [], last_cleanup := t }

/-- `_cleanup_cache`: skip when less than 5 minutes (300 s) have elapsed
since the last sweep, else drop every entry older than the TTL and stamp
`_last_cleanup`. -/
def cleanup_cache (now ttl : Nat) (s : CacheState α) : CacheState α :=
  if now - s.last_cleanup < 300 then s
  else { cache := s.cache.filter (fun p => now - p.2.ts ≤ ttl), last_cleanup := now }

/-- `_get_cache`: lazily sweep, then look the key up; a present entry whose
age exceeds the TTL is popped and treated as a miss, otherwise its value is
returned. -/
def get_cache (now ttl : Nat) (s : CacheState α) (key : String) :
    CacheState α × Option α :=
  let s := cleanup_cache now ttl s
  match lookupKey s.cache key with
  | none => (s, none)
  | some e =>
    if now - e.ts > ttl then
      ({ s with cache := s.cache.filter (fun p => ¬p.1 = key) }, none)
    else (s, some e.val)

/-- `_set_cache`: store-or-overwrite with the current timestamp. -/
def set_cache (now : Nat) (s : CacheState α) (key : String) (v : α) : CacheState α :=
  { s with cache := dictInsert s.cache key (CEntry.mk v now) }

/-- The shared `cache_ttl_seconds` default of both agents. -/
def cacheTTL : Nat := 300

/-! ### Jira agent -/

/-- One entry of the `/project` listing (`.get("name", "")` /
`.get("key", "")` defaults make both fields total strings). -/
structure Project where
  name : String
  key : String
deriving DecidableEq, Repr

/-- Values the Jira agent stores in its cache: the `projects:list` listing
and `issues:...` search results (issue records are opaque tags). -/
inductive JiraVal where
  | projects (ps : List Project)
  | issues (tags : List String)
deriving DecidableEq, Repr

def projectsOf : JiraVal → List Project
  | .projects ps => ps
  | .issues _ => []

def issuesOf : JiraVal → List String
  | .issues l => l
  | .projects _ => []

/-- Transport replies for the Jira agent, already mapped to domain shape:
the `/project` listing, the `/search` results as a function of the request
fields (the JQL and query parameters are built from exactly these), the
key of a `POST /issue` creation, and the mapped record / `fields.project.key`
of `GET /issue/{key}` detail responses. -/
structure JiraOracle where
  projectsResp : List Project
  searchResp : Option String → Option String → Option String → Option String → Nat →
    List String
  createResp : String → String
  issueDetail : String → String
  issueDetailProject : String → String

/-- `JiraAgent.get_projects`: `projects:list` cache round-trip, else one
Transport read.  Returns (state, projects, Transport calls issued). -/
def get_projects (o : JiraOracle) (now : Nat) (s : CacheState JiraVal) :
    CacheState JiraVal × List Project × Nat :=
  let r := get_cache now cacheTTL s "projects:list"
  match r.2 with
  | some v => (r.1, projectsOf v, 0)
  | none =>
    (set_cache now r.1 "projects:list" (.projects o.projectsResp), o.projectsResp, 1)

/-- The pure search of `find_project_by_name` over the projects listing:
exact case-insensitive name match first, then substring match, then the
transformed-key (strip spaces, uppercase) match, else `None`. -/
def findProjectKey (projects : List Project) (project_name : String) : Option String :=
  match projects.find? (fun p => lowerStr p.name = lowerStr project_name) with
  | some p => some p.key
  | none =>
    match projects.find? (fun p => strContains (lowerStr p.name) (lowerStr project_name)) with
    | some p => some p.key
    | none =>
      match projects.find? (fun p => upperStr p.key = upperStr (stripSpaces project_name)) with
      | some p => some p.key
      | none => none

/-- `JiraAgent.find_project_by_name` (cache-aware): fetch the projects
listing, then search it. -/
def find_project_by_name (o : JiraOracle) (now : Nat) (s : CacheState JiraVal)
    (project_name : String) : CacheState JiraVal × Option String × Nat :=
  let r := get_projects o now s
  (r.1, findProjectKey r.2.1 project_name, r.2.2)

/-- Python truthiness of an optional string (`None` and `""` are falsy). -/
def pyTruthy : Option String → Bool
  | none => false
  | some s => !(s = "")

/-- Python string formatting of an optional value inside an f-string
(`None` renders as "None"). -/
def optStr : Option String → String
  | none => "None"
  | some s => s

/-- The parameters of `JiraAgent.get_issues`. -/
structure GetIssuesArgs where
  project : Option String := none
  status : Option String := none
  assignee : Option String := none
  issue_type : Option String := none
  max_results : Nat := 50
deriving DecidableEq, Repr

/-- `f"issues:{project_key}:{status}:{assignee}:{issue_type}:{max_results}"`. -/
def issuesCacheKey (project_key : Option String) (a : GetIssuesArgs) : String :=
  "issues:" ++ optStr project_key ++ ":" ++ optStr a.status ++ ":" ++ optStr a.assignee
    ++ ":" ++ optStr a.issue_type ++ ":" ++ Nat.repr a.max_results

/-- The tail of `get_issues` after project-name resolution: cache
round-trip on the issues key, else one Transport read of `/search` plus a
cache store.  `reads` carries Transport calls already issued by the
resolution step. -/
def getIssuesAt (o : JiraOracle) (now : Nat) (s : CacheState JiraVal)
    (a : GetIssuesArgs) (project_key : Option String) (reads : Nat) :
    CacheState JiraVal × List String × Nat :=
  let key := issuesCacheKey project_key a
  let r := get_cache now cacheTTL s key
  match r.2 with
  | some v => (r.1, issuesOf v, reads)
  | none =>
    let issues := o.searchResp project_key a.status a.assignee a.issue_type a.max_results
    (set_cache now r.1 key (.issues issues), issues, reads + 1)

/-- `JiraAgent.get_issues`: resolve a truthy project name first (an
unresolved or empty key returns `[]` without a search read), then do the
cached search. -/
def get_issues (o : JiraOracle) (now : Nat) (s : CacheState JiraVal)
    (a : GetIssuesArgs) : CacheState JiraVal × List String × Nat :=
  if pyTruthy a.project then
    let r := find_project_by_name o now s (optStr a.project)
    if pyTruthy r.2.1 then getIssuesAt o now r.1 a r.2.1 r.2.2
    else (r.1, [], r.2.2)
  else getIssuesAt o now s a none 0

/-- `JiraAgent._invalidate_project_cache`: transform the project name to a
key (strip spaces, uppercase; empty stays empty) and drop every cache entry
whose key contains `":{project_key}:"`. -/
def invalidate_project_cache (s : CacheState JiraVal) (project : String) :
    CacheState JiraVal :=
  let project_key := if project = "" then "" else upperStr (stripSpaces project)
  let kept := s.cache.filter (fun p => !(strContains p.1 (":" ++ project_key ++ ":")))
  { s with cache := kept }

/-- `JiraAgent.create_issue`: resolve the project name (an unresolved name
raises `ValueError`), `POST /issue`, `GET /issue/{key}`, then invalidate the
resolved project's cache family.  Returns (state, result-or-raise,
Transport calls issued). -/
def create_issue (o : JiraOracle) (now : Nat) (s : CacheState JiraVal)
    (project : String) : CacheState JiraVal × Except String String × Nat :=
  let r := find_project_by_name o now s project
  if pyTruthy r.2.1 then
    let pk := (r.2.1).getD ""
    let issue_key := o.createResp pk
    let issue := o.issueDetail issue_key
    let s₂ := if !(pk = "") then invalidate_project_cache r.1 pk else r.1
    (s₂, .ok issue, r.2.2 + 2)
  else
    (r.1, .error ("Project " ++ project ++ " not found in Jira"), r.2.2)

/-- `JiraAgent.update_issue`: `PUT /issue/{key}`, `GET /issue/{key}`, then
invalidate the cache family of the updated issue's (truthy) project key. -/
def update_issue (o : JiraOracle) (_now : Nat) (s : CacheState JiraVal)
    (issue_key : String) : CacheState JiraVal × String × Nat :=
  let issue := o.issueDetail issue_key
  let proj := o.issueDetailProject issue_key
  let s₂ := if !(proj = "") then invalidate_project_cache s proj else s
  (s₂, issue, 2)

/-! ### Confluence agent -/

/-- A mapped Confluence page record, modelled opaquely. -/
abbrev PageRec := String

/-- Transport replies for the Confluence agent: the mapped page found by
`(page_id, title, space_key)` (or `none` when the content lookup returns no
pages), and the mapped response of `PUT /content/{page_id}`. -/
structure ConfOracle where
  fetchPage : Option String → Option String → Option String → Option PageRec
  updateResp : String → PageRec

/-- `ConfluenceAgent.get_page`: cache round-trip on
`f"page:{page_id}:{title}:{space_key}"`; on a miss, one Transport read;
a found page is cached, an absent one is not. -/
def conf_get_page (o : ConfOracle) (now : Nat) (s : CacheState PageRec)
    (page_id title space_key : Option String) :
    CacheState PageRec × Option PageRec × Nat :=
  let key := "page:" ++ optStr page_id ++ ":" ++ optStr title ++ ":" ++ optStr space_key
  let r := get_cache now cacheTTL s key
  match r.2 with
  | some v => (r.1, some v, 0)
  | none =>
    match o.fetchPage page_id title space_key with
    | none => (r.1, none, 1)
    | some pg => (set_cache now r.1 key pg, some pg, 1)

/-- `ConfluenceAgent.update_page`: `GET /content/{page_id}` for the current
version, then `PUT /content/{page_id}` — and no cache access at all: the
method neither reads nor invalidates `self.cache`. -/
def conf_update_page (o : ConfOracle) (_now : Nat) (s : CacheState PageRec)
    (page_id : String) : CacheState PageRec × PageRec × Nat :=
  (s, o.updateResp page_id, 2)

/-! ### Cache lemmas -/

theorem startsWithSeq_append [DecidableEq α] (n y : List α) :
    startsWithSeq n (n ++ y) = true := by
  induction n with
  | nil => rfl
  | cons a as ih => simp [startsWithSeq, ih]

theorem containsSeq_of_startsWithSeq [DecidableEq α] (n l : List α)
    (h : startsWithSeq n l = true) : containsSeq n l = true := by
  cases l with
  | nil => simpa [containsSeq] using h
  | cons b bs => simp [containsSeq, h]

theorem containsSeq_append_left [DecidableEq α] (n x l : List α)
    (h : containsSeq n l = true) : containsSeq n (x ++ l) = true := by
  induction x with
  | nil => simpa using h
  | cons c cs ih =>
    rw [List.cons_append]
    cases l with
    | nil =>
      simp only [List.append_nil] at ih ⊢
      simp [containsSeq, ih]
    | cons b bs => simp [containsSeq, ih]

theorem containsSeq_middle [DecidableEq α] (x n y : List α) :
    containsSeq n (x ++ n ++ y) = true := by
  rw [List.append_assoc]
  exact containsSeq_append_left n x _
    (containsSeq_of_startsWithSeq n (n ++ y) (startsWithSeq_append n y))

theorem lookupKey_filter_none (m : List (String × β)) (k : String)
    (f : String × β → Bool) (h : lookupKey m k = none) :
    lookupKey (m.filter f) k = none := by
  unfold lookupKey at *
  cases hf : m.find? (fun p => p.1 = k) with
  | some p => rw [hf] at h; cases h
  | none =>
    rw [List.find?_eq_none.mpr]
    intro p hp
    exact (List.find?_eq_none.mp hf) p (List.mem_of_mem_filter hp)

/-- An entry is only ever returned by `_get_cache` while its age is within
the TTL: a returned value comes from a present entry with
`now - ts ≤ ttl`. -/
theorem get_cache_age_le_ttl (now ttl : Nat) (s : CacheState α) (key : String) (v : α)
    (h : (get_cache now ttl s key).2 = some v) :
    ∃ e, lookupKey (cleanup_cache now ttl s).cache key = some e ∧
      e.val = v ∧ now - e.ts ≤ ttl := by
  simp only [get_cache] at h
  split at h
  · simp at h
  · rename_i e heq
    split at h
    · simp at h
    · rename_i hage
      exact ⟨e, heq, by simpa using h, Nat.le_of_not_lt hage⟩

theorem lookupKey_cleanup_none (now ttl : Nat) (s : CacheState α) (key : String)
    (h : lookupKey s.cache key = none) :
    lookupKey (cleanup_cache now ttl s).cache key = none := by
  unfold cleanup_cache
  split
  · exact h
  · exact lookupKey_filter_none _ _ _ h

theorem getIssuesAt_fresh (o : JiraOracle) (now : Nat) (s : CacheState JiraVal)
    (a : GetIssuesArgs) (pk : Option String) (reads : Nat)
    (h : lookupKey s.cache (issuesCacheKey pk a) = none) :
    (getIssuesAt o now s a pk reads).2.1
      = o.searchResp pk a.status a.assignee a.issue_type a.max_results ∧
    (getIssuesAt o now s a pk reads).2.2 = reads + 1 := by
  have h' := lookupKey_cleanup_none now cacheTTL s (issuesCacheKey pk a) h
  simp [getIssuesAt, get_cache, h']

theorem invalidate_project_cache_mem (s : CacheState JiraVal) (project : String)
    (hp : ¬project = "") (p : String × CEntry JiraVal)
    (hmem : p ∈ (invalidate_project_cache s project).cache) :
    strContains p.1 (":" ++ upperStr (stripSpaces project) ++ ":") = false := by
  unfold invalidate_project_cache at hmem
  rw [if_neg hp] at hmem
  have := List.of_mem_filter hmem
  simpa using this

theorem containsSeq_colon_middle (x pkd y : List Char) :
    containsSeq ([':'] ++ (pkd ++ [':'])) (x ++ ([':'] ++ (pkd ++ ([':'] ++ y)))) = true := by
  have h := containsSeq_middle x ([':'] ++ (pkd ++ [':'])) y
  rwa [List.append_assoc, List.append_assoc, List.append_assoc] at h

/-- The issues cache key for a resolved project key contains the
`":{key}:"` pattern that `_invalidate_project_cache` matches. -/
theorem issuesCacheKey_contains (pk : String) (a : GetIssuesArgs) :
    strContains (issuesCacheKey (some pk) a) (":" ++ pk ++ ":") = true := by
  have hi : ("issues:" : String).data = "issues".data ++ [':'] := by decide
  have hc : (":" : String).data = [':'] := by decide
  unfold strContains issuesCacheKey
  simp only [optStr, String.data_append, hc, hi, List.append_assoc]
  exact containsSeq_colon_middle "issues".data pk.data _

theorem get_issues_initial (o : JiraOracle) (t : Nat) (a : GetIssuesArgs)
    (hproj : a.project = none) :
    get_issues o t (initCache t) a
      = ({ cache := [(issuesCacheKey none a,
            ⟨.issues (o.searchResp none a.status a.assignee a.issue_type a.max_results), t⟩)],
           last_cleanup := t },
         o.searchResp none a.status a.assignee a.issue_type a.max_results, 1) := by
  simp [get_issues, hproj, pyTruthy, getIssuesAt, get_cache, cleanup_cache, initCache,
    lookupKey, set_cache, dictInsert]

theorem get_issues_cached (o : JiraOracle) (t₁ t₂ : Nat) (a : GetIssuesArgs)
    (hproj : a.project = none) (httl : t₂ - t₁ ≤ 300) :
    (get_issues o t₂ (get_issues o t₁ (initCache t₁) a).1 a).2.1
        = o.searchResp none a.status a.assignee a.issue_type a.max_results ∧
    (get_issues o t₂ (get_issues o t₁ (initCache t₁) a).1 a).2.2 = 0 := by
  rw [get_issues_initial o t₁ a hproj]
  have hna : ¬t₂ - t₁ > 300 := by omega
  have httl₂ : t₂ ≤ 300 + t₁ := by omega
  by_cases hc : t₂ - t₁ < 300
  · simp [get_issues, hproj, pyTruthy, getIssuesAt, get_cache, cleanup_cache,
      lookupKey, cacheTTL, hc, hna, issuesOf]
  · simp [get_issues, hproj, pyTruthy, getIssuesAt, get_cache, cleanup_cache,
      lookupKey, cacheTTL, hc, hna, httl, httl₂, issuesOf]

theorem get_issues_expired (o : JiraOracle) (t₁ t₂ : Nat) (a : GetIssuesArgs)
    (hproj : a.project = none) (hgt : t₂ - t₁ > 300) :
    (get_issues o t₂ (get_issues o t₁ (initCache t₁) a).1 a).2.1
        = o.searchResp none a.status a.assignee a.issue_type a.max_results ∧
    (get_issues o t₂ (get_issues o t₁ (initCache t₁) a).1 a).2.2 = 1 := by
  rw [get_issues_initial o t₁ a hproj]
  have hnc : ¬t₂ - t₁ < 300 := by omega
  have hnle : ¬t₂ - t₁ ≤ 300 := by omega
  have hnle₂ : ¬t₂ ≤ 300 + t₁ := by omega
  simp [get_issues, hproj, pyTruthy, getIssuesAt, get_cache, cleanup_cache,
    lookupKey, set_cache, dictInsert, cacheTTL, hnc, hnle, hnle₂]

/-! ### Claim theorems about the adapter caches -/

/-- The concrete Jira oracle used in cache witnesses: one project
"Alpha" with key "AL". -/
def c6Oracle : JiraOracle :=
  { projectsResp := [⟨"Alpha", "AL"⟩],
    searchResp := fun _ _ _ _ _ => ["AL-1"],
    createResp := fun _ => "AL-1",
    issueDetail := fun k => k,
    issueDetailProject := fun _ => "AL" }

def c6ArgsNone : GetIssuesArgs := {}

def c6ArgsProj : GetIssuesArgs := { project := some "Alpha" }

/-- C6 counterexample: a `get_issues` call that passes a project name
resolves it through `find_project_by_name` first, so the first of two
identical calls issues two Transport reads (`/project` and `/search`), not
one; the two calls together issue two reads, not exactly one. -/
theorem C6_counterexample :
    (get_issues c6Oracle 0 (initCache 0) c6ArgsProj).2.2
      + (get_issues c6Oracle 10
          (get_issues c6Oracle 0 (initCache 0) c6ArgsProj).1 c6ArgsProj).2.2 = 2 ∧
    ¬((get_issues c6Oracle 0 (initCache 0) c6ArgsProj).2.2
      + (get_issues c6Oracle 10
          (get_issues c6Oracle 0 (initCache 0) c6ArgsProj).1 c6ArgsProj).2.2 = 1) := by
  constructor <;> decide

/-- C6 amended: for a `get_issues` with no project name, two identical calls
within the TTL issue exactly one Transport read in total — the first call
reads once, the second is served from cache with zero reads and returns the
same value; a second call past the TTL issues a fresh Transport read; and,
in general, `_get_cache` never returns an entry whose age exceeds the TTL
(a returned value always comes from an entry aged at most `ttl`).  When a
project name must be resolved, the first call additionally reads the
projects listing (see the counterexample), but the second call within TTL
still issues zero reads. -/
theorem C6_amended_cache_round_trip :
    (∀ (o : JiraOracle) (t₁ t₂ : Nat) (a : GetIssuesArgs),
      a.project = none → t₂ - t₁ ≤ 300 →
      (get_issues o t₁ (initCache t₁) a).2.2 = 1 ∧
      (get_issues o t₂ (get_issues o t₁ (initCache t₁) a).1 a).2.2 = 0 ∧
      (get_issues o t₂ (get_issues o t₁ (initCache t₁) a).1 a).2.1
        = (get_issues o t₁ (initCache t₁) a).2.1) ∧
    (∀ (o : JiraOracle) (t₁ t₂ : Nat) (a : GetIssuesArgs),
      a.project = none → t₂ - t₁ > 300 →
      (get_issues o t₂ (get_issues o t₁ (initCache t₁) a).1 a).2.2 = 1) ∧
    (∀ (now ttl : Nat) (s : CacheState JiraVal) (key : String) (v : JiraVal),
      (get_cache now ttl s key).2 = some v →
      ∃ e, lookupKey (cleanup_cache now ttl s).cache key = some e ∧
        e.val = v ∧ now - e.ts ≤ ttl) := by
  refine ⟨?_, ?_, fun now ttl s key v h => get_cache_age_le_ttl now ttl s key v h⟩
  · intro o t₁ t₂ a hp httl
    have h1 := get_issues_initial o t₁ a hp
    have h2 := get_issues_cached o t₁ t₂ a hp httl
    refine ⟨by rw [h1], h2.2, ?_⟩
    rw [h2.1, h1]
  · intro o t₁ t₂ a hp hgt
    exact (get_issues_expired o t₁ t₂ a hp hgt).2

theorem C6_amended_cache_round_trip_witness :
    ((get_issues c6Oracle 0 (initCache 0) c6ArgsNone).2.2 = 1 ∧
     (get_issues c6Oracle 100
        (get_issues c6Oracle 0 (initCache 0) c6ArgsNone).1 c6ArgsNone).2.2 = 0 ∧
     (get_issues c6Oracle 100
        (get_issues c6Oracle 0 (initCache 0) c6ArgsNone).1 c6ArgsNone).2.1
       = (get_issues c6Oracle 0 (initCache 0) c6ArgsNone).2.1) ∧
    (get_issues c6Oracle 400
      (get_issues c6Oracle 0 (initCache 0) c6ArgsNone).1 c6ArgsNone).2.2 = 1 ∧
    (∃ e, lookupKey (cleanup_cache 10 300
        (⟨[("k", ⟨.issues ["x"], 5⟩)], 0⟩ : CacheState JiraVal)).cache "k" = some e ∧
      e.val = .issues ["x"] ∧ 10 - e.ts ≤ 300) :=
  ⟨C6_amended_cache_round_trip.1 c6Oracle 0 100 c6ArgsNone rfl (by decide),
   C6_amended_cache_round_trip.2.1 c6Oracle 0 400 c6ArgsNone rfl (by decide),
   C6_amended_cache_round_trip.2.2 10 300 ⟨[("k", ⟨.issues ["x"], 5⟩)], 0⟩ "k"
     (.issues ["x"]) (by decide)⟩

/-- The Confluence oracle used to refute C3: the stored page is `"old"`
before the write and `"new"` after it. -/
def c3Oracle : ConfOracle :=
  { fetchPage := fun _ _ _ => some "old", updateResp := fun _ => "new" }

/-- C3 counterexample: `ConfluenceAgent.update_page` performs no cache
invalidation, so `get_page` on the same page id after an update is served
from cache (zero Transport reads) and returns the value cached before the
write, even though the update produced a different page. -/
theorem C3_counterexample :
    (conf_update_page c3Oracle 10
      (conf_get_page c3Oracle 0 (initCache 0) (some "1") none none).1 "1").2.1 = "new" ∧
    (conf_get_page c3Oracle 20
      (conf_update_page c3Oracle 10
        (conf_get_page c3Oracle 0 (initCache 0) (some "1") none none).1 "1").1
      (some "1") none none).2.1 = some "old" ∧
    (conf_get_page c3Oracle 20
      (conf_update_page c3Oracle 10
        (conf_get_page c3Oracle 0 (initCache 0) (some "1") none none).1 "1").1
      (some "1") none none).2.2 = 0 ∧
    ¬(("old" : PageRec) = "new") := by
  refine ⟨rfl, ?_, ?_, by decide⟩ <;> decide

/-- C3 amended: the Jira adapter's `create_issue` and `update_issue` do
invalidate the resource family — after either, no cache entry whose key
contains the transformed project key remains — and a `get_issues` search on
a family-free cache always issues a fresh Transport read and returns the
current Transport response.  The Confluence adapter's `update_page`
performs no invalidation, so a `get_page` after an update can return the
value cached before the write (see the counterexample). -/
theorem C3_amended_invalidation :
    (∀ (o : JiraOracle) (now : Nat) (s : CacheState JiraVal) (project pk : String),
      (find_project_by_name o now s project).2.1 = some pk → ¬pk = "" →
      ∀ p ∈ (create_issue o now s project).1.cache,
        strContains p.1 (":" ++ upperStr (stripSpaces pk) ++ ":") = false) ∧
    (∀ (o : JiraOracle) (now : Nat) (s : CacheState JiraVal) (issue_key : String),
      ¬o.issueDetailProject issue_key = "" →
      ∀ p ∈ (update_issue o now s issue_key).1.cache,
        strContains p.1
          (":" ++ upperStr (stripSpaces (o.issueDetailProject issue_key)) ++ ":") = false) ∧
    (∀ (o : JiraOracle) (now : Nat) (s : CacheState JiraVal) (a : GetIssuesArgs)
        (pk : String),
      (∀ p ∈ s.cache, strContains p.1 (":" ++ pk ++ ":") = false) →
      (getIssuesAt o now s a (some pk) 0).2.1
        = o.searchResp (some pk) a.status a.assignee a.issue_type a.max_results ∧
      (getIssuesAt o now s a (some pk) 0).2.2 = 0 + 1) := by
  refine ⟨?_, ?_, ?_⟩
  · intro o now s project pk hres hpk p hp
    have hstate : (create_issue o now s project).1
        = invalidate_project_cache (find_project_by_name o now s project).1 pk := by
      simp only [create_issue]
      rw [hres]
      simp [pyTruthy, hpk]
    rw [hstate] at hp
    exact invalidate_project_cache_mem _ pk hpk p hp
  · intro o now s issue_key hproj p hp
    have hstate : (update_issue o now s issue_key).1
        = invalidate_project_cache s (o.issueDetailProject issue_key) := by
      simp [update_issue, hproj]
    rw [hstate] at hp
    exact invalidate_project_cache_mem _ _ hproj p hp
  · intro o now s a pk hfam
    have hfind : s.cache.find? (fun p => p.1 = issuesCacheKey (some pk) a) = none := by
      rw [List.find?_eq_none]
      intro p hp
      simp only [decide_eq_true_eq]
      intro hkey
      have hc := hfam p hp
      rw [hkey, issuesCacheKey_contains pk a] at hc
      exact Bool.noConfusion hc
    have hnone : lookupKey s.cache (issuesCacheKey (some pk) a) = none := by
      unfold lookupKey
      rw [hfind]
    exact getIssuesAt_fresh o now s a (some pk) 0 hnone

/-- The pre-write cache state used in the amended-C3 witness: one stale
issues listing for project AL. -/
def c3Stale : CacheState JiraVal :=
  ⟨[("issues:AL:None:None:None:50", ⟨.issues ["stale"], 0⟩)], 0⟩

theorem C3_amended_invalidation_witness :
    (∀ p ∈ (create_issue c6Oracle 0 c3Stale "Alpha").1.cache,
      strContains p.1 (":" ++ upperStr (stripSpaces "AL") ++ ":") = false) ∧
    (∀ p ∈ (update_issue c6Oracle 0 c3Stale "AL-1").1.cache,
      strContains p.1
        (":" ++ upperStr (stripSpaces (c6Oracle.issueDetailProject "AL-1")) ++ ":")
        = false) ∧
    ((getIssuesAt c6Oracle 0 (initCache 0) c6ArgsNone (some "AL") 0).2.1
      = c6Oracle.searchResp (some "AL") none none none 50 ∧
     (getIssuesAt c6Oracle 0 (initCache 0) c6ArgsNone (some "AL") 0).2.2 = 0 + 1) :=
  ⟨C3_amended_invalidation.1 c6Oracle 0 c3Stale "Alpha" "AL" (by decide) (by decide),
   C3_amended_invalidation.2.1 c6Oracle 0 c3Stale "AL-1" (by decide),
   C3_amended_invalidation.2.2 c6Oracle 0 (initCache 0) c6ArgsNone "AL"
     (by intro p hp; simp [initCache] at hp)⟩

/-- C8: `find_project_by_name` searches in order — exact case-insensitive
name match first, then substring match, then transformed-key (strip spaces,
uppercase) match; an exact match is returned whenever one exists, a
substring match only when no exact match exists, a key match only when
neither exists; and when nothing matches, the search yields `None`, after
which `get_issues` returns the empty result and `create_issue` raises, in
both cases without issuing any further Transport call beyond the projects
read — no key is guessed. -/
theorem C8_name_resolution :
    (∀ (projects : List Project) (pname : String),
      (∃ p ∈ projects, lowerStr p.name = lowerStr pname) →
      ∃ p ∈ projects, findProjectKey projects pname = some p.key ∧
        lowerStr p.name = lowerStr pname) ∧
    (∀ (projects : List Project) (pname : String),
      (∀ p ∈ projects, ¬lowerStr p.name = lowerStr pname) →
      (∃ p ∈ projects, strContains (lowerStr p.name) (lowerStr pname) = true) →
      ∃ p ∈ projects, findProjectKey projects pname = some p.key ∧
        strContains (lowerStr p.name) (lowerStr pname) = true) ∧
    (∀ (projects : List Project) (pname : String),
      (∀ p ∈ projects, ¬lowerStr p.name = lowerStr pname) →
      (∀ p ∈ projects, ¬strContains (lowerStr p.name) (lowerStr pname) = true) →
      (∃ p ∈ projects, upperStr p.key = upperStr (stripSpaces pname)) →
      ∃ p ∈ projects, findProjectKey projects pname = some p.key ∧
        upperStr p.key = upperStr (stripSpaces pname)) ∧
    (∀ (projects : List Project) (pname : String),
      (∀ p ∈ projects, ¬lowerStr p.name = lowerStr pname ∧
        ¬strContains (lowerStr p.name) (lowerStr pname) = true ∧
        ¬upperStr p.key = upperStr (stripSpaces pname)) →
      findProjectKey projects pname = none) ∧
    (∀ (o : JiraOracle) (now : Nat) (s : CacheState JiraVal) (a : GetIssuesArgs)
        (pname : String),
      a.project = some pname → ¬pname = "" →
      findProjectKey ((get_projects o now s).2.1) pname = none →
      (get_issues o now s a).2.1 = [] ∧
      (get_issues o now s a).2.2 = (get_projects o now s).2.2) ∧
    (∀ (o : JiraOracle) (now : Nat) (s : CacheState JiraVal) (project : String),
      findProjectKey ((get_projects o now s).2.1) project = none →
      (create_issue o now s project).2.1
        = .error ("Project " ++ project ++ " not found in Jira") ∧
      (create_issue o now s project).2.2 = (get_projects o now s).2.2) := by
  refine ⟨?_, ?_, ?_, ?_, ?_, ?_⟩
  · intro projects pname hex
    cases hf : projects.find? (fun p => lowerStr p.name = lowerStr pname) with
    | some p =>
      refine ⟨p, List.mem_of_find?_eq_some hf, ?_, ?_⟩
      · unfold findProjectKey
        rw [hf]
      · have := List.find?_some hf
        simpa using this
    | none =>
      obtain ⟨p, hp, hpe⟩ := hex
      have := List.find?_eq_none.mp hf p hp
      simp [hpe] at this
  · intro projects pname hnoex hsub
    have hf₁ : projects.find? (fun p => lowerStr p.name = lowerStr pname) = none := by
      rw [List.find?_eq_none]
      intro p hp
      simpa using hnoex p hp
    cases hf₂ : projects.find?
        (fun p => strContains (lowerStr p.name) (lowerStr pname)) with
    | some p =>
      refine ⟨p, List.mem_of_find?_eq_some hf₂, ?_, ?_⟩
      · unfold findProjectKey
        rw [hf₁, hf₂]
      · have := List.find?_some hf₂
        simpa using this
    | none =>
      obtain ⟨p, hp, hpe⟩ := hsub
      have := List.find?_eq_none.mp hf₂ p hp
      simp [hpe] at this
  · intro projects pname hnoex hnosub hkey
    have hf₁ : projects.find? (fun p => lowerStr p.name = lowerStr pname) = none := by
      rw [List.find?_eq_none]
      intro p hp
      simpa using hnoex p hp
    have hf₂ : projects.find?
        (fun p => strContains (lowerStr p.name) (lowerStr pname)) = none := by
      rw [List.find?_eq_none]
      intro p hp
      simpa using hnosub p hp
    cases hf₃ : projects.find?
        (fun p => upperStr p.key = upperStr (stripSpaces pname)) with
    | some p =>
      refine ⟨p, List.mem_of_find?_eq_some hf₃, ?_, ?_⟩
      · unfold findProjectKey
        rw [hf₁, hf₂, hf₃]
      · have := List.find?_some hf₃
        simpa using this
    | none =>
      obtain ⟨p, hp, hpe⟩ := hkey
      have := List.find?_eq_none.mp hf₃ p hp
      simp [hpe] at this
  · intro projects pname hall
    have hf₁ : projects.find? (fun p => lowerStr p.name = lowerStr pname) = none := by
      rw [List.find?_eq_none]
      intro p hp
      simpa using (hall p hp).1
    have hf₂ : projects.find?
        (fun p => strContains (lowerStr p.name) (lowerStr pname)) = none := by
      rw [List.find?_eq_none]
      intro p hp
      simpa using (hall p hp).2.1
    have hf₃ : projects.find?
        (fun p => upperStr p.key = upperStr (stripSpaces pname)) = none := by
      rw [List.find?_eq_none]
      intro p hp
      simpa using (hall p hp).2.2
    unfold findProjectKey
    rw [hf₁, hf₂, hf₃]
  · intro o now s a pname ha hne hfind
    have hty : pyTruthy a.project = true := by
      rw [ha]
      simp [pyTruthy, hne]
    have hopt : optStr a.project = pname := by rw [ha]; rfl
    simp only [get_issues, hty, if_true, find_project_by_name, hopt]
    simp [hfind, pyTruthy]
  · intro o now s project hfind
    simp only [create_issue, find_project_by_name]
    simp [hfind, pyTruthy]

/-- The projects listing used in the C8 witness. -/
def c8Projects : List Project := [⟨"Alpha One", "AO"⟩, ⟨"Beta", "BE"⟩]

def c8Args : GetIssuesArgs := { project := some "Gamma" }

theorem C8_name_resolution_witness :
    (∃ p ∈ c8Projects, findProjectKey c8Projects "alpha one" = some p.key ∧
      lowerStr p.name = lowerStr "alpha one") ∧
    (∃ p ∈ c8Projects, findProjectKey c8Projects "eta" = some p.key ∧
      strContains (lowerStr p.name) (lowerStr "eta") = true) ∧
    (∃ p ∈ c8Projects, findProjectKey c8Projects "ao" = some p.key ∧
      upperStr p.key = upperStr (stripSpaces "ao")) ∧
    findProjectKey c8Projects "Gamma" = none ∧
    ((get_issues c6Oracle 0 (initCache 0) c8Args).2.1 = [] ∧
     (get_issues c6Oracle 0 (initCache 0) c8Args).2.2
       = (get_projects c6Oracle 0 (initCache 0)).2.2) ∧
    ((create_issue c6Oracle 0 (initCache 0) "Gamma").2.1
       = .error ("Project " ++ "Gamma" ++ " not found in Jira") ∧
     (create_issue c6Oracle 0 (initCache 0) "Gamma").2.2
       = (get_projects c6Oracle 0 (initCache 0)).2.2) :=
  ⟨C8_name_resolution.1 c8Projects "alpha one" (by decide),
   C8_name_resolution.2.1 c8Projects "eta" (by decide) (by decide),
   C8_name_resolution.2.2.1 c8Projects "ao" (by decide) (by decide) (by decide),
   C8_name_resolution.2.2.2.1 c8Projects "Gamma" (by decide),
   C8_name_resolution.2.2.2.2.1 c6Oracle 0 (initCache 0) c8Args "Gamma" rfl
     (by decide) (by decide),
   C8_name_resolution.2.2.2.2.2 c6Oracle 0 (initCache 0) "Gamma" (by decide)⟩
